import Mathlib

/-!
# FrequencyCounter: a shallow embedding of the frequency counter module

This file embeds the core of the `FrequencyCounter` library (file
`FrequencyCounter.cpp`, ATmega32U4 build) in Lean 4 and proves properties of
the embedded code.

The build configuration embedded here is the one compiled into the shipped
source: `FCEXTERN = 1`, `FCPERIOD = 1`, hence `FCEXTNO = 6`, `FCPRDNO = 7`,
`FCMODEMAX = 9`, `PERIODTIMOUT = 5000`, and `FCPRESCALER = 1` (so the optional
post-scale multiplication is compiled out).

Modelling conventions:
* C machine integers become `Nat` (or `Int` for the signed `sbyte`), with an
  explicit `% 2^w` exactly where the C code can wrap (`unsigned long` is
  32 bits on AVR, `unsigned int` 16 bits, `byte` 8 bits).
* The module's globals (`_FreqCtrReady`, `fcResult`, `fcOVF`, `fcprescaler`,
  `fcprescalInit`, `fcGateTime`, `PrdCnt`) together with the one hardware
  register the code uses as state (`TCCR0B`) form the record `FCState`.
  Hardware registers that the code only writes and never branches on
  (`TCCR0A`, `TIMSK0`, `TIFR0`, the pin configuration) are omitted.
* The free-running hardware count `TCNT0` and the `micros()` clock are inputs
  supplied by the environment, so the interrupt handlers take the value read
  from them as an explicit parameter.
* Interrupt handlers and member functions become state transformers; the
  cooperative wait loop of the two `read` overloads is modelled by its guard
  `readWaitGuard`, re-evaluated on the live state each iteration, and the
  post-loop body of the string overload is `FrequencyCounter.read`.
* `sprintf_P(st, "%lu", v)` becomes `natDigits v`, and
  `sprintf_P(st, "%09lu", v)` becomes `zeroPadC 9 (natDigits v)`.
-/

/-- The module state: the C file's globals plus the `TCCR0B` timer-control
register, which the code uses both as hardware control and as the
"not the first gate cycle" marker. -/
structure FCState where
  FreqCtrReady : Bool
  fcResult : Nat
  fcOVF : Nat
  fcprescaler : Nat
  fcprescalInit : Nat
  fcGateTime : Int
  PrdCnt : Nat
  TCCR0B : Nat
  deriving Repr, DecidableEq

/-- `FCEXTNO`: the mode value for external-gate mode (config with both
`FCPERIOD` and `FCEXTERN` enabled). -/
def FCEXTNO : Int := 6

/-- `FCPRDNO`: the first period-measure mode value. -/
def FCPRDNO : Int := 7

/-- `FCMODEMAX`: the largest valid mode value. -/
def FCMODEMAX : Int := 9

/-- `PERIODTIMOUT`: period-measure timeout in milliseconds. -/
def PERIODTIMOUT : Nat := 5000

/-- The C startup state: all globals zero-initialized, timer stopped. -/
def fcInit : FCState :=
  { FreqCtrReady := false, fcResult := 0, fcOVF := 0, fcprescaler := 0,
    fcprescalInit := 0, fcGateTime := 0, PrdCnt := 0, TCCR0B := 0 }

/-- The ASCII digit character for `d` (`'0' + d` in C). -/
def digitChar (d : Nat) : Char := Char.ofNat (48 + d)

/-- Decimal rendering of a natural number as a list of characters, most
significant digit first; the model of `sprintf_P(st, "%lu", n)`. -/
def natDigits (n : Nat) : List Char :=
  if n < 10 then [digitChar n]
  else natDigits (n / 10) ++ [digitChar (n % 10)]
decreasing_by exact Nat.div_lt_self (by omega) (by omega)

/-- Left-pad a character list with `'0'` up to width `w`; together with
`natDigits` this models `sprintf_P(st, "%09lu", n)` (with `w = 9`). -/
def zeroPadC (w : Nat) (l : List Char) : List Char :=
  List.replicate (w - l.length) '0' ++ l

/-- The last `k` characters of `l` (the `st + (strlen(st) - DP)` suffix the C
code copies). -/
def lastN (k : Nat) (l : List Char) : List Char := l.drop (l.length - k)

/-- `Log10I(Val)`: the C helper; counts how many times `Val` can be divided
by 10 before it is `<= 1`. -/
def Log10I (Val : Nat) : Nat :=
  if Val > 1 then 1 + Log10I (Val / 10) else 0
decreasing_by exact Nat.div_lt_self (by omega) (by omega)

/-- `DPStr(st, Val, DP)`: renders `Val` as `"%09lu"` and keeps the last `DP`
characters, preceded by a decimal point; empty when `DP = 0`. -/
def DPStr (Val : Nat) (DP : Nat) : List Char :=
  if DP = 0 then []
  else
    let padded := zeroPadC 9 (natDigits Val)
    '.' :: lastN DP padded

/-- The `while (dp < 0) { Val *= 10; dp++; }` loop of `read`: `k` successive
multiplications by 10, each wrapping at 32 bits as `unsigned long` does. -/
def mulPow10Mod : Nat → Nat → Nat
  | v, 0 => v
  | v, k + 1 => mulPow10Mod (v * 10 % 4294967296) k

/-- `FrequencyCounter::mode(sbyte GateTime)`, lines 453-531 of the source.
Negative arguments jump to `GetGate` and return the current mode; arguments
above `FCMODEMAX` return `-1` without touching state; otherwise the mode is
committed, the divisor `t` and (for period modes) `PrdCnt` are resolved, the
counter hardware is armed or disarmed, and `_FreqCtrReady`/`fcResult` are
cleared.  Returns the pair (returned `sbyte`, state after the call). -/
def FrequencyCounter.mode (GateTime : Int) (s : FCState) : Int × FCState :=
  if GateTime < 0 then (s.fcGateTime, s)
  else if GateTime > FCMODEMAX then (-1, s)
  else
    -- fcGateTime = GateTime; remap ext-gate, then fold 1s/10ms/100ms into
    -- sequential order 0=off,1=10mS,2=100mS,3=1S,4=10S,5=100S
    let g1 : Int := if GateTime = FCEXTNO then 1 else GateTime
    let g2 : Int := if g1 ≠ 0 ∧ g1 < 4 then (if g1 - 1 = 0 then 3 else g1 - 1) else g1
    -- t = 10^(g2-1) computed in a 16-bit unsigned int, 0 when off
    let t0 : Nat := if g2 ≠ 0 then 10 ^ (g2.toNat - 1) % 65536 else 0
    -- period modes: PrdCnt = 10^(g2-FCPRDNO) and t = PERIODTIMOUT/10
    let PrdCnt : Nat := if GateTime ≥ FCPRDNO then 10 ^ (g2 - FCPRDNO).toNat % 256 else s.PrdCnt
    let t : Nat := if GateTime ≥ FCPRDNO then PERIODTIMOUT / 10 else t0
    let s1 : FCState :=
      { s with fcGateTime := GateTime, PrdCnt := PrdCnt,
               fcprescaler := t, fcprescalInit := t }
    let s2 : FCState :=
      if t ≠ 0 then
        -- counter on: fcprescaler = 1 to give setup time, arm the hardware
        if GateTime ≥ FCPRDNO then
          -- period mode: preload TCNT0 = -PrdCnt, clear fcOVF, start (TCCR0B = 6)
          { s1 with fcprescaler := 1, fcOVF := 0, TCCR0B := 6 }
        else if GateTime = FCEXTNO then
          -- ext gate: leave the counter stopped, hand gating to the pin ISR
          { s1 with fcprescaler := 0, TCCR0B := 0 }
        else
          -- tick-gated frequency mode: counter stopped until the first gate close
          { s1 with fcprescaler := 1, TCCR0B := 0 }
      else
        -- counter off
        { s1 with TCCR0B := 0 }
    (GateTime, { s2 with FreqCtrReady := false, fcResult := 0 })

/-- `FrequencyCounter::mode(void)`: returns the current gate mode. -/
def FrequencyCounter.modeGet (s : FCState) : Int := s.fcGateTime

/-- `FrequencyCounter::available(void)`: the ready flag. -/
def FrequencyCounter.available (s : FCState) : Bool := s.FreqCtrReady

/-- `FreqCtrGateISR`, lines 388-435: called once per 10 ms tick.  When the
prescale countdown expires, period modes run the timeout check and frequency
modes snapshot the combined count; `TCNT0val` is the hardware count read at
the gate close (`svTCNT`, a byte). -/
def FreqCtrGateISR (s : FCState) (TCNT0val : Nat) : FCState :=
  if s.fcprescaler ≠ 0 then
    if s.fcprescaler - 1 = 0 then
      if s.fcGateTime ≥ FCPRDNO then
        -- period mode: timeout; publish the no-signal sentinel if nothing landed
        if s.FreqCtrReady = false then
          { s with fcOVF := 0, fcResult := 1, FreqCtrReady := true,
                   fcprescaler := s.fcprescalInit }
        else
          { s with fcprescaler := s.fcprescalInit }
      else
        -- frequency mode: stop counter, snapshot, restart; ready only if the
        -- saved TCCR0B was nonzero (not the first gate cycle)
        { s with TCCR0B := 6,
                 fcResult := (s.fcOVF * 256 + TCNT0val % 256) % 4294967296,
                 fcOVF := 0,
                 FreqCtrReady := if s.TCCR0B ≠ 0 then true else s.FreqCtrReady,
                 fcprescaler := s.fcprescalInit }
    else
      { s with fcprescaler := s.fcprescaler - 1 }
  else s

/-- `ISR(TIMER0_OVF_vect)`, lines 358-385: in period modes each input
transition overflows the preloaded counter; the handler publishes the delta
of `micros()` readings once a start timestamp exists.  In frequency modes it
counts hardware-counter wraps.  `SavMicros` is the `micros()` reading. -/
def TIMER0_OVF (s : FCState) (SavMicros : Nat) : FCState :=
  if s.fcGateTime ≥ FCPRDNO then
    let m := SavMicros % 4294967296
    let s1 : FCState :=
      if s.fcOVF ≠ 0 then
        { s with fcResult := (m + 4294967296 - s.fcOVF) % 4294967296,
                 FreqCtrReady := true }
      else s
    { s1 with fcprescaler := s1.fcprescalInit, fcOVF := m }
  else
    { s with fcOVF := (s.fcOVF + 1) % 4294967296 }

/-- `PCChangeIntFunc`, lines 323-354: the external-gate edge handler.
`wentLow`/`wentHigh` say whether the gate-input bit is set in `Changes[0]` /
`Changes[1]`; `TCNT0val` is the hardware count read on the rising edge. -/
def PCChangeIntFunc (s : FCState) (wentLow wentHigh : Bool) (TCNT0val : Nat) : FCState :=
  if s.fcGateTime = FCEXTNO then
    let s1 : FCState := if wentLow then { s with TCCR0B := 6, fcOVF := 0 } else s
    if wentHigh then
      { s1 with TCCR0B := 0,
                fcResult := (s1.fcOVF * 256 + TCNT0val % 256) % 4294967296,
                fcOVF := 0,
                FreqCtrReady := if s1.TCCR0B ≠ 0 then true else s1.FreqCtrReady }
    else s1
  else s

/-- The guard of the cooperative wait loop shared by both `read` overloads:
`while (fcGateTime && Wait && !_FreqCtrReady) { yield(); }`.  It is
re-evaluated on the live state at every iteration. -/
def readWaitGuard (s : FCState) (Wait : Bool) : Bool :=
  (decide (s.fcGateTime ≠ 0)) && Wait && !s.FreqCtrReady

/-- `FrequencyCounter::read(char *St, bool Wait)`, lines 560-659, after the
wait loop: formats the raw result.  Period modes convert the period to Hz
with 5 implied decimals, mapping the no-signal sentinel to `0.00000` and a
too-short period to `999999`; frequency modes scale by the gate divisor.
Returns `none` when no buffer was supplied (`St == NULL`). -/
def FrequencyCounter.read (hasBuf : Bool) (s : FCState) : Option String × FCState :=
  if hasBuf = false then (none, s)
  else
    let Val := s.fcResult
    if s.fcGateTime ≥ FCPRDNO then
      -- dp = 5; scale = 100000
      if s.FreqCtrReady = true ∧ 24 * s.PrdCnt < Val then
        -- Val = (100000000000ULL * PrdCnt) / Val, narrowed to unsigned long
        let V := 100000000000 * s.PrdCnt / Val % 4294967296
        (some (String.mk (natDigits (V / 100000) ++ DPStr V 5)),
         { s with FreqCtrReady := false })
      else if Val = 1 then
        -- timeout sentinel: clear the low byte of Val (1 becomes 0)
        (some (String.mk (natDigits (0 / 100000) ++ DPStr 0 5)),
         { s with FreqCtrReady := false })
      else
        -- input frequency too fast: dp = 0, scale = 1, Val = 999999
        (some (String.mk (natDigits (999999 / 1))),
         { s with FreqCtrReady := false })
    else
      -- regular count mode
      let scale := s.fcprescalInit / 100
      let dpi : Int := (Log10I s.fcprescalInit : Int) - 2
      if dpi < 0 then
        -- scale = 1; multiply Val by 10 until dp reaches 0
        let V := mulPow10Mod Val (-dpi).toNat
        (some (String.mk (natDigits (V / 1))), { s with FreqCtrReady := false })
      else
        (some (String.mk (natDigits (Val / scale) ++ DPStr Val dpi.toNat)),
         { s with FreqCtrReady := false })

/-- `FrequencyCounter::read(bool Wait)`, lines 662-679, after the wait loop:
clears the ready flag and returns the raw (unscaled) result. -/
def FrequencyCounter.readRaw (s : FCState) : Nat × FCState :=
  (s.fcResult, { s with FreqCtrReady := false })

/-- One externally triggered event of the system: a `mode` call, a 10 ms gate
tick, a counter-overflow interrupt, a gate-pin edge interrupt, or a read. -/
inductive FCEvent where
  | modeSet (g : Int)
  | gateTick (cnt : Nat)
  | ovf (micros : Nat)
  | pinChange (lo hi : Bool) (cnt : Nat)
  | readStr (hasBuf : Bool)
  | readRawCall

/-- The state transition performed by one event. -/
def FCStep (s : FCState) : FCEvent → FCState
  | .modeSet g => (FrequencyCounter.mode g s).2
  | .gateTick c => FreqCtrGateISR s c
  | .ovf m => TIMER0_OVF s m
  | .pinChange lo hi c => PCChangeIntFunc s lo hi c
  | .readStr b => (FrequencyCounter.read b s).2
  | .readRawCall => (FrequencyCounter.readRaw s).2

/-- States reachable from the startup state under any event sequence. -/
inductive Reachable : FCState → Prop
  | init : Reachable fcInit
  | step {s : FCState} : Reachable s → ∀ e : FCEvent, Reachable (FCStep s e)

/-- Exactly `j` least-significant decimal digits of `n`, most significant
first (used to relate the formatter's suffix copy to `% 10^j`). -/
def digitsFixed : Nat → Nat → List Char
  | 0, _ => []
  | j + 1, n => digitsFixed j (n / 10) ++ [digitChar (n % 10)]

/-- Invariant relating the gate mode to the prescale countdown: the mode code
stays in range, the countdown is parked at zero exactly in Off and
ExternalGate modes, and in every tick-gated mode both the countdown and its
reload value are nonzero. -/
def FCInv (s : FCState) : Prop :=
  0 ≤ s.fcGateTime ∧ s.fcGateTime ≤ 9 ∧
  ((s.fcGateTime = 0 ∨ s.fcGateTime = 6) → s.fcprescaler = 0) ∧
  (s.fcGateTime ≠ 0 → s.fcGateTime ≠ 6 → s.fcprescaler ≠ 0 ∧ s.fcprescalInit ≠ 0)

/-- The spec's period-mode rendering: `Hz = (10^6 * N) / P` in exact integer
arithmetic with exactly 5 digits after the decimal point, i.e. the integer
quotient `q = (10^11 * N) / P` split as `q / 10^5` integer digits and
`q % 10^5` zero-padded to width 5 after the point. -/
def specPeriodRender (N P : Nat) : String :=
  let q := 100000000000 * N / P
  String.mk (natDigits (q / 100000) ++ '.' :: zeroPadC 5 (natDigits (q % 100000)))

/-!
## Decimal digit-string lemmas

These connect `natDigits`/`zeroPadC`/`lastN` (the model of the `sprintf`
plus suffix-copy formatting in the C code) with arithmetic on `Nat`:
the last `j` characters of the zero-padded rendering of `n` are the
`j`-digit zero-padded rendering of `n % 10^j`.
-/

theorem digitsFixed_length (j : Nat) : ∀ n : Nat, (digitsFixed j n).length = j := by
  induction j with
  | zero => intro n; rfl
  | succ j ih =>
      intro n
      simp [digitsFixed, ih (n / 10)]

theorem digitsFixed_zero (j : Nat) : digitsFixed j 0 = List.replicate j '0' := by
  induction j with
  | zero => rfl
  | succ j ih =>
      rw [List.replicate_succ']
      simp [digitsFixed, ih]
      rfl

theorem digitsFixed_mod (j : Nat) : ∀ n : Nat, digitsFixed j (n % 10 ^ j) = digitsFixed j n := by
  induction j with
  | zero => intro n; rfl
  | succ j ih =>
      intro n
      have h10 : (10:Nat) ^ (j + 1) = 10 * 10 ^ j := by ring
      have hmod : n % 10 ^ (j + 1) % 10 = n % 10 := by
        apply Nat.mod_mod_of_dvd
        exact ⟨10 ^ j, h10⟩
      have hdiv : n % 10 ^ (j + 1) / 10 = n / 10 % 10 ^ j := by
        rw [h10, Nat.mod_mul_right_div_self]
      simp only [digitsFixed, hmod, hdiv, ih (n / 10)]

theorem natDigits_length_pos (n : Nat) : 1 ≤ (natDigits n).length := by
  rw [natDigits]
  split
  · simp
  · simp

theorem natDigits_length_le (j : Nat) :
    ∀ n : Nat, 1 ≤ j → n < 10 ^ j → (natDigits n).length ≤ j := by
  induction j with
  | zero => intro n h1 _; omega
  | succ j ih =>
      intro n _ h
      by_cases h10 : n < 10
      · rw [natDigits, if_pos h10]
        simp
      · have hj1 : 1 ≤ j := by
          by_contra hj0
          have : j = 0 := by omega
          subst this
          simp at h
          omega
        have hlt : n / 10 < 10 ^ j := by
          apply Nat.div_lt_of_lt_mul
          calc n < 10 ^ (j + 1) := h
            _ = 10 * 10 ^ j := by ring
        have := ih (n / 10) hj1 hlt
        rw [natDigits, if_neg h10]
        simp only [List.length_append, List.length_cons, List.length_nil]
        omega

theorem natDigits_decomp (j : Nat) :
    ∀ n : Nat, j ≤ (natDigits n).length →
      ∃ pre : List Char, natDigits n = pre ++ digitsFixed j n := by
  induction j with
  | zero => intro n _; exact ⟨natDigits n, by simp [digitsFixed]⟩
  | succ j ih =>
      intro n hj
      by_cases h10 : n < 10
      · rw [natDigits, if_pos h10] at hj ⊢
        simp only [List.length_cons, List.length_nil] at hj
        have hj0 : j = 0 := by omega
        subst hj0
        refine ⟨[], ?_⟩
        simp [digitsFixed, Nat.mod_eq_of_lt h10]
      · rw [natDigits, if_neg h10] at hj ⊢
        simp only [List.length_append, List.length_cons, List.length_nil] at hj
        have hj' : j ≤ (natDigits (n / 10)).length := by omega
        obtain ⟨pre, hpre⟩ := ih (n / 10) hj'
        refine ⟨pre, ?_⟩
        rw [hpre]
        simp [digitsFixed]

theorem digitsFixed_of_length_le (j : Nat) :
    ∀ n : Nat, (natDigits n).length ≤ j → digitsFixed j n = zeroPadC j (natDigits n) := by
  induction j with
  | zero =>
      intro n h
      have := natDigits_length_pos n
      omega
  | succ j ih =>
      intro n h
      by_cases h10 : n < 10
      · rw [natDigits, if_pos h10]
        have hd : n / 10 = 0 := Nat.div_eq_of_lt h10
        have hm : n % 10 = n := Nat.mod_eq_of_lt h10
        simp only [digitsFixed, hd, hm, digitsFixed_zero, zeroPadC,
          List.length_cons, List.length_nil]
        congr 2
      · rw [natDigits, if_neg h10] at h ⊢
        simp only [List.length_append, List.length_cons, List.length_nil] at h
        have h' : (natDigits (n / 10)).length ≤ j := by omega
        have hpos := natDigits_length_pos (n / 10)
        simp only [digitsFixed, ih (n / 10) h', zeroPadC, List.length_append,
          List.length_cons, List.length_nil]
        rw [List.append_assoc]
        congr 2
        omega

theorem zeroPadC_length_of_le (w : Nat) (l : List Char) (h : l.length ≤ w) :
    (zeroPadC w l).length = w := by
  simp [zeroPadC]
  omega

theorem lastN_append (a b : List Char) (j : Nat) (h : j ≤ b.length) :
    lastN j (a ++ b) = lastN j b := by
  unfold lastN
  rw [List.length_append, List.drop_append_eq_append_drop]
  rw [List.drop_eq_nil_of_le (by omega)]
  simp only [List.nil_append]
  congr 1
  omega

theorem lastN_of_length_eq (l : List Char) (j : Nat) (h : l.length = j) :
    lastN j l = l := by
  unfold lastN
  rw [h, Nat.sub_self, List.drop_zero]

/-- The central formatting fact: the last `j` characters of the width-9
zero-padded decimal rendering of `n` are the width-`j` zero-padded decimal
rendering of `n % 10^j`, for `1 ≤ j ≤ 9`. -/
theorem lastN_zeroPadC_natDigits (n j : Nat) (h1 : 1 ≤ j) (h9 : j ≤ 9) :
    lastN j (zeroPadC 9 (natDigits n)) = zeroPadC j (natDigits (n % 10 ^ j)) := by
  have hrhs : zeroPadC j (natDigits (n % 10 ^ j)) = digitsFixed j n := by
    rw [← digitsFixed_of_length_le j (n % 10 ^ j)
        (natDigits_length_le j _ h1 (Nat.mod_lt _ (by positivity)))]
    exact digitsFixed_mod j n
  rw [hrhs]
  rcases le_or_lt j (natDigits n).length with hle | hlt
  · obtain ⟨pre, hpre⟩ := natDigits_decomp j n hle
    rw [zeroPadC, hpre, ← List.append_assoc]
    rw [lastN_append _ _ _ (by rw [digitsFixed_length])]
    exact lastN_of_length_eq _ _ (digitsFixed_length j n)
  · have hd : (natDigits n).length ≤ j := by omega
    have hsplit : zeroPadC 9 (natDigits n) =
        List.replicate (9 - j) '0' ++ zeroPadC j (natDigits n) := by
      unfold zeroPadC
      rw [← List.append_assoc, ← List.replicate_add]
      congr 2
      omega
    rw [hsplit, lastN_append _ _ _ (by rw [zeroPadC_length_of_le j _ hd]),
      lastN_of_length_eq _ _ (zeroPadC_length_of_le j _ hd)]
    exact (digitsFixed_of_length_le j n hd).symm

/-- A decimal digit character is never a decimal point. -/
theorem digitChar_ne_dot (d : Nat) (h : d < 10) : digitChar d ≠ '.' := by
  interval_cases d <;> decide

/-- No character of a decimal rendering is a decimal point. -/
theorem dot_not_mem_natDigits (n : Nat) : '.' ∉ natDigits n := by
  rw [natDigits]
  split
  · rename_i h10
    intro hmem
    simp only [List.mem_singleton] at hmem
    exact digitChar_ne_dot n h10 hmem.symm
  · intro hmem
    rw [List.mem_append] at hmem
    rcases hmem with hmem | hmem
    · exact dot_not_mem_natDigits (n / 10) hmem
    · simp only [List.mem_singleton] at hmem
      exact digitChar_ne_dot (n % 10) (Nat.mod_lt _ (by omega)) hmem.symm
decreasing_by exact Nat.div_lt_self (by omega) (by omega)

/-!
## Arithmetic helpers
-/

/-- `k >= 1` wrapping multiplications by 10 equal one multiplication by
`10^k` followed by a single 32-bit reduction. -/
theorem mulPow10Mod_eq (k : Nat) :
    ∀ v : Nat, 1 ≤ k → mulPow10Mod v k = v * 10 ^ k % 4294967296 := by
  induction k with
  | zero => intro v h; omega
  | succ k ih =>
      intro v _
      by_cases hk : 1 ≤ k
      · have step : mulPow10Mod v (k + 1) = mulPow10Mod (v * 10 % 4294967296) k := rfl
        rw [step, ih _ hk, Nat.mod_mul_mod]
        ring_nf
      · have hk0 : k = 0 := by omega
        subst hk0
        simp [mulPow10Mod]

/-- In period modes, the 64-bit quotient `(10^11 * PrdCnt) / Val` fits in an
`unsigned long` whenever the code's guard `Val > 24 * PrdCnt` holds (for the
three legal averaging counts), so the narrowing assignment loses nothing. -/
theorem period_quot_lt (N P : Nat) (hN : N = 1 ∨ N = 10 ∨ N = 100)
    (hP : 24 * N < P) : 100000000000 * N / P < 4294967296 := by
  rcases hN with h | h | h <;> subst h
  · calc 100000000000 * 1 / P ≤ 100000000000 * 1 / 25 :=
        Nat.div_le_div_left (by omega) (by omega)
      _ < 4294967296 := by norm_num
  · calc 100000000000 * 10 / P ≤ 100000000000 * 10 / 241 :=
        Nat.div_le_div_left (by omega) (by omega)
      _ < 4294967296 := by norm_num
  · calc 100000000000 * 100 / P ≤ 100000000000 * 100 / 2401 :=
        Nat.div_le_div_left (by omega) (by omega)
      _ < 4294967296 := by norm_num

/-!
## The prescaler/mode invariant over reachable states
-/

theorem fcInit_inv : FCInv fcInit := by
  refine ⟨by decide, by decide, fun _ => rfl, fun h _ => absurd rfl h⟩

theorem fcStep_inv (s : FCState) (hs : FCInv s) (e : FCEvent) : FCInv (FCStep s e) := by
  obtain ⟨h0, h9, hz, hnz⟩ := hs
  cases e with
  | modeSet g =>
      show FCInv (FrequencyCounter.mode g s).2
      by_cases hneg : g < 0
      · rw [FrequencyCounter.mode, if_pos hneg]
        exact ⟨h0, h9, hz, hnz⟩
      · by_cases hbig : g > FCMODEMAX
        · rw [FrequencyCounter.mode, if_neg hneg, if_pos hbig]
          exact ⟨h0, h9, hz, hnz⟩
        · have hg0 : 0 ≤ g := by omega
          have hg9 : g ≤ 9 := by
            simp only [FCMODEMAX] at hbig; omega
          interval_cases g <;>
            simp [FrequencyCounter.mode, FCInv, FCMODEMAX, FCEXTNO, FCPRDNO, PERIODTIMOUT]
  | gateTick c =>
      show FCInv (FreqCtrGateISR s c)
      rw [FreqCtrGateISR]
      by_cases hp : s.fcprescaler ≠ 0
      · have hmode : s.fcGateTime ≠ 0 ∧ s.fcGateTime ≠ 6 := by
          constructor <;> (intro h; exact hp (hz (by tauto)))
        have hinit := hnz hmode.1 hmode.2
        rw [if_pos hp]
        by_cases hone : s.fcprescaler - 1 = 0
        · rw [if_pos hone]
          by_cases hper : s.fcGateTime ≥ FCPRDNO
          · rw [if_pos hper]
            by_cases hready : s.FreqCtrReady = false
            · rw [if_pos hready]
              exact ⟨h0, h9, fun h => by tauto, fun _ _ => ⟨hinit.2, hinit.2⟩⟩
            · rw [if_neg hready]
              exact ⟨h0, h9, fun h => by tauto, fun _ _ => ⟨hinit.2, hinit.2⟩⟩
          · rw [if_neg hper]
            exact ⟨h0, h9, fun h => by tauto, fun _ _ => ⟨hinit.2, hinit.2⟩⟩
        · rw [if_neg hone]
          exact ⟨h0, h9, fun h => by tauto, fun _ _ => ⟨hone, hinit.2⟩⟩
      · rw [if_neg hp]
        exact ⟨h0, h9, hz, hnz⟩
  | ovf m =>
      show FCInv (TIMER0_OVF s m)
      simp only [TIMER0_OVF]
      by_cases hper : s.fcGateTime ≥ FCPRDNO
      · have hmode : s.fcGateTime ≠ 0 ∧ s.fcGateTime ≠ 6 := by
          simp only [FCPRDNO] at hper
          constructor <;> omega
        have hinit := hnz hmode.1 hmode.2
        rw [if_pos hper]
        split_ifs with hovf <;>
          exact ⟨h0, h9, fun h => by tauto, fun _ _ => ⟨hinit.2, hinit.2⟩⟩
      · rw [if_neg hper]
        exact ⟨h0, h9, hz, hnz⟩
  | pinChange lo hi c =>
      show FCInv (PCChangeIntFunc s lo hi c)
      rw [PCChangeIntFunc]
      by_cases hext : s.fcGateTime = FCEXTNO
      · rw [if_pos hext]
        cases lo <;> cases hi <;> simp_all [FCInv, FCEXTNO]
      · rw [if_neg hext]
        exact ⟨h0, h9, hz, hnz⟩
  | readStr b =>
      show FCInv (FrequencyCounter.read b s).2
      simp only [FrequencyCounter.read]
      split_ifs <;> exact ⟨h0, h9, hz, hnz⟩
  | readRawCall =>
      show FCInv (FrequencyCounter.readRaw s).2
      exact ⟨h0, h9, hz, hnz⟩

/-- Every reachable state satisfies the invariant. -/
theorem reachable_inv (s : FCState) (h : Reachable s) : FCInv s := by
  induction h with
  | init => exact fcInit_inv
  | step _ e ih => exact fcStep_inv _ ih e

/-!
## Claim theorems
-/

/-- C6: for every supported mode code `m` (0 up to the compiled-in maximum 9),
`FrequencyCounter::mode(m)` returns `m`, and a subsequent
`FrequencyCounter::mode()` query also returns `m`. -/
theorem c6_mode_roundtrip (g : Int) (s : FCState) (h0 : 0 ≤ g) (h9 : g ≤ 9) :
    (FrequencyCounter.mode g s).1 = g ∧
    FrequencyCounter.modeGet (FrequencyCounter.mode g s).2 = g := by
  interval_cases g <;>
    simp [FrequencyCounter.mode, FrequencyCounter.modeGet, FCMODEMAX, FCEXTNO,
      FCPRDNO, PERIODTIMOUT]

/-- Witness for `c6_mode_roundtrip` at mode 9 from the startup state. -/
theorem c6_mode_roundtrip_witness :
    (0 ≤ (9:Int) ∧ (9:Int) ≤ 9) ∧
    ((FrequencyCounter.mode 9 fcInit).1 = 9 ∧
     FrequencyCounter.modeGet (FrequencyCounter.mode 9 fcInit).2 = 9) :=
  ⟨⟨by decide, by decide⟩, c6_mode_roundtrip 9 fcInit (by decide) (by decide)⟩

/-- C5 counterexample: calling `mode(1)` (1 s gate, a frequency mode) on a
state whose overflow accumulator holds 5 leaves `fcOVF = 5`: the claim that
every accepted mode branch resets the overflow accumulator is false. -/
theorem c5_counterexample :
    ((FrequencyCounter.mode 1 { fcInit with fcOVF := 5 }).2).fcOVF ≠ 0 := by decide

/-- C5 (amended): every accepted mode code resets the result register, the
ready flag and the prescale countdown, but the overflow accumulator `fcOVF`
is cleared only in the period-mode branch; frequency-mode and off branches
leave it unchanged. -/
theorem c5_mode_reset (g : Int) (s : FCState) (h0 : 0 ≤ g) (h9 : g ≤ 9) :
    ((FrequencyCounter.mode g s).2).FreqCtrReady = false ∧
    ((FrequencyCounter.mode g s).2).fcResult = 0 ∧
    ((FrequencyCounter.mode g s).2).fcprescaler = (if g = 0 ∨ g = 6 then 0 else 1) ∧
    (7 ≤ g → ((FrequencyCounter.mode g s).2).fcOVF = 0) ∧
    (g < 7 → ((FrequencyCounter.mode g s).2).fcOVF = s.fcOVF) := by
  interval_cases g <;>
    simp [FrequencyCounter.mode, FCMODEMAX, FCEXTNO, FCPRDNO, PERIODTIMOUT]

/-- Witness for `c5_mode_reset` at mode 2 from a state with a dirty
accumulator. -/
theorem c5_mode_reset_witness :
    (0 ≤ (2:Int) ∧ (2:Int) ≤ 9) ∧
    (((FrequencyCounter.mode 2 { fcInit with fcOVF := 7 }).2).FreqCtrReady = false ∧
     ((FrequencyCounter.mode 2 { fcInit with fcOVF := 7 }).2).fcResult = 0 ∧
     ((FrequencyCounter.mode 2 { fcInit with fcOVF := 7 }).2).fcprescaler =
       (if (2:Int) = 0 ∨ (2:Int) = 6 then 0 else 1) ∧
     (7 ≤ (2:Int) → ((FrequencyCounter.mode 2 { fcInit with fcOVF := 7 }).2).fcOVF = 0) ∧
     ((2:Int) < 7 → ((FrequencyCounter.mode 2 { fcInit with fcOVF := 7 }).2).fcOVF =
       ({ fcInit with fcOVF := 7 } : FCState).fcOVF)) :=
  ⟨⟨by decide, by decide⟩, c5_mode_reset 2 { fcInit with fcOVF := 7 } (by decide) (by decide)⟩

/-- C7 counterexample: `-2` is a mode code outside the supported set `0..9`,
yet `mode(-2)` does not return the InvalidMode sentinel `-1`; it returns the
current mode (0 here). -/
theorem c7_counterexample :
    (-2 : Int) < 0 ∧ (FrequencyCounter.mode (-2) fcInit).1 ≠ -1 := by decide

/-- C7 (amended): mode codes greater than the compiled-in maximum return the
InvalidMode sentinel `-1` and leave the state unchanged; strictly negative
codes also leave the state unchanged (they act as queries). -/
theorem c7_invalid_mode (g : Int) (s : FCState) :
    (FCMODEMAX < g → FrequencyCounter.mode g s = (-1, s)) ∧
    (g < 0 → (FrequencyCounter.mode g s).2 = s) := by
  constructor
  · intro h
    have h9 : (9:Int) < g := by simpa [FCMODEMAX] using h
    rw [FrequencyCounter.mode, if_neg (by omega), if_pos h]
  · intro h
    rw [FrequencyCounter.mode, if_pos h]

/-- Witness for `c7_invalid_mode` at code 10 from the startup state. -/
theorem c7_invalid_mode_witness :
    FCMODEMAX < (10:Int) ∧ FrequencyCounter.mode 10 fcInit = (-1, fcInit) :=
  ⟨by decide, (c7_invalid_mode 10 fcInit).1 (by decide)⟩

/-- C10: every strictly negative argument (not only the documented `-1`) makes
`mode` act as a pure query: the call returns the current mode unchanged with
the state untouched, and on reachable states (whose mode is in `0..9`) it
never returns the InvalidMode sentinel `-1`. -/
theorem c10_negative_mode_query (g : Int) (s : FCState) (hg : g < 0) :
    FrequencyCounter.mode g s = (s.fcGateTime, s) ∧
    (Reachable s → (FrequencyCounter.mode g s).1 ≠ -1) := by
  have hq : FrequencyCounter.mode g s = (s.fcGateTime, s) := by
    rw [FrequencyCounter.mode, if_pos hg]
  refine ⟨hq, fun hr => ?_⟩
  have h0 := (reachable_inv s hr).1
  rw [hq]
  simp only
  omega

/-- Witness for `c10_negative_mode_query` at code `-2` from the startup
state. -/
theorem c10_negative_mode_query_witness :
    (-2 : Int) < 0 ∧
    (FrequencyCounter.mode (-2) fcInit = (fcInit.fcGateTime, fcInit) ∧
     (Reachable fcInit → (FrequencyCounter.mode (-2) fcInit).1 ≠ -1)) :=
  ⟨by decide, c10_negative_mode_query (-2) fcInit (by decide)⟩

/-- C8 counterexample: the state reached from startup by `mode(6)`
(ExternalGate, an active measuring mode) is reachable, its mode is not Off,
and yet its prescale countdown is 0 — so "`fcprescaler` is zero iff
measurement is inactive, nonzero in every measuring mode including
ExternalGate" is false. -/
theorem c8_counterexample :
    Reachable (FCStep fcInit (FCEvent.modeSet 6)) ∧
    (FCStep fcInit (FCEvent.modeSet 6)).fcGateTime = 6 ∧
    (FCStep fcInit (FCEvent.modeSet 6)).fcGateTime ≠ 0 ∧
    (FCStep fcInit (FCEvent.modeSet 6)).fcprescaler = 0 :=
  ⟨Reachable.step Reachable.init (FCEvent.modeSet 6), by decide, by decide, by decide⟩

/-- C8 (amended): in every reachable state the prescale countdown is zero
exactly when the mode is Off or ExternalGate; it is nonzero in every
tick-gated mode (frequency gates 1..5 and period modes 7..9). -/
theorem c8_prescaler_zero_iff (s : FCState) (h : Reachable s) :
    s.fcprescaler = 0 ↔ (s.fcGateTime = 0 ∨ s.fcGateTime = 6) := by
  obtain ⟨h0, h9, hz, hnz⟩ := reachable_inv s h
  constructor
  · intro hp
    by_contra hcon
    push_neg at hcon
    exact (hnz hcon.1 hcon.2).1 hp
  · exact hz

/-- Witness for `c8_prescaler_zero_iff` at the startup state. -/
theorem c8_prescaler_zero_iff_witness :
    Reachable fcInit ∧
    (fcInit.fcprescaler = 0 ↔ (fcInit.fcGateTime = 0 ∨ fcInit.fcGateTime = 6)) :=
  ⟨Reachable.init, c8_prescaler_zero_iff fcInit Reachable.init⟩

/-- C9: a waiting read returns immediately when the mode is Off (the wait
guard is false), and since the guard re-reads the live mode on every
iteration, any state sequence that ever reaches mode Off cannot keep the
wait loop spinning forever. -/
theorem c9_wait_released_when_off :
    (∀ s : FCState, s.fcGateTime = 0 → readWaitGuard s true = false) ∧
    (∀ σ : Nat → FCState, (∃ n, (σ n).fcGateTime = 0) →
      ¬ (∀ k, readWaitGuard (σ k) true = true)) := by
  have h1 : ∀ s : FCState, s.fcGateTime = 0 → readWaitGuard s true = false := by
    intro s h
    simp [readWaitGuard, h]
  refine ⟨h1, ?_⟩
  rintro σ ⟨n, hn⟩ hall
  have hf := hall n
  rw [h1 (σ n) hn] at hf
  exact Bool.false_ne_true hf

/-- Witness for `c9_wait_released_when_off` at the startup state (mode Off). -/
theorem c9_wait_released_when_off_witness :
    fcInit.fcGateTime = 0 ∧ readWaitGuard fcInit true = false :=
  ⟨rfl, c9_wait_released_when_off.1 fcInit rfl⟩

/-- C4: the ready flag at a frequency-mode gate close is driven by the saved
`TCCR0B`: (1) arming any frequency mode (1..6) leaves `TCCR0B = 0` and the
ready flag clear; (2) a tick-driven gate close sets ready exactly when the
saved `TCCR0B` was nonzero, and restarts the counter with `TCCR0B = 6`;
(3) hence the first gate close after arming a tick-gated mode never sets
ready — the partial first count is discarded; (4) the external-gate rising
edge marks ready under the same saved-`TCCR0B` test, and the falling edge
starts the counter (`TCCR0B = 6`). -/
theorem c4_first_gate_discard :
    (∀ g : Int, ∀ s : FCState, 1 ≤ g → g ≤ 6 →
       ((FrequencyCounter.mode g s).2).TCCR0B = 0 ∧
       ((FrequencyCounter.mode g s).2).FreqCtrReady = false) ∧
    (∀ s : FCState, ∀ cnt : Nat, s.fcGateTime < 7 → s.fcprescaler = 1 →
       (FreqCtrGateISR s cnt).FreqCtrReady =
         (if s.TCCR0B ≠ 0 then true else s.FreqCtrReady) ∧
       (FreqCtrGateISR s cnt).TCCR0B = 6) ∧
    (∀ g : Int, ∀ s : FCState, ∀ cnt : Nat, 1 ≤ g → g ≤ 5 →
       (FreqCtrGateISR (FrequencyCounter.mode g s).2 cnt).FreqCtrReady = false) ∧
    (∀ s : FCState, ∀ cnt : Nat, s.fcGateTime = 6 →
       (PCChangeIntFunc s false true cnt).FreqCtrReady =
         (if s.TCCR0B ≠ 0 then true else s.FreqCtrReady) ∧
       (PCChangeIntFunc s true false cnt).TCCR0B = 6) := by
  have hclose : ∀ s : FCState, ∀ cnt : Nat, s.fcGateTime < 7 → s.fcprescaler = 1 →
      (FreqCtrGateISR s cnt).FreqCtrReady =
        (if s.TCCR0B ≠ 0 then true else s.FreqCtrReady) ∧
      (FreqCtrGateISR s cnt).TCCR0B = 6 := by
    intro s cnt hm hp
    rw [FreqCtrGateISR, if_pos (by omega), if_pos (by omega),
      if_neg (show ¬ s.fcGateTime ≥ FCPRDNO by simp only [FCPRDNO]; omega)]
    exact ⟨rfl, rfl⟩
  refine ⟨?_, hclose, ?_, ?_⟩
  · intro g s h1 h6
    interval_cases g <;>
      simp [FrequencyCounter.mode, FCMODEMAX, FCEXTNO, FCPRDNO, PERIODTIMOUT]
  · intro g s cnt h1 h5
    have harm : ((FrequencyCounter.mode g s).2).TCCR0B = 0 ∧
        ((FrequencyCounter.mode g s).2).FreqCtrReady = false ∧
        ((FrequencyCounter.mode g s).2).fcGateTime < 7 ∧
        ((FrequencyCounter.mode g s).2).fcprescaler = 1 := by
      interval_cases g <;>
        simp [FrequencyCounter.mode, FCMODEMAX, FCEXTNO, FCPRDNO, PERIODTIMOUT]
    obtain ⟨hB, hR, hm, hp⟩ := harm
    rw [(hclose _ cnt hm hp).1, hB]
    simp [hR]
  · intro s cnt hext
    constructor
    · rw [PCChangeIntFunc, if_pos (show s.fcGateTime = FCEXTNO by
        simpa [FCEXTNO] using hext)]
      simp
    · rw [PCChangeIntFunc, if_pos (show s.fcGateTime = FCEXTNO by
        simpa [FCEXTNO] using hext)]
      simp

/-- Witness for `c4_first_gate_discard`: the first gate close after arming
mode 1 does not set ready. -/
theorem c4_first_gate_discard_witness :
    ((1:Int) ≤ 1 ∧ (1:Int) ≤ 5) ∧
    (FreqCtrGateISR (FrequencyCounter.mode 1 fcInit).2 0).FreqCtrReady = false :=
  ⟨⟨by decide, by decide⟩, c4_first_gate_discard.2.2.1 1 fcInit 0 (by decide) (by decide)⟩

/-- C3: (1) when the gate-timer countdown expires in a period mode with no
fresh result ready, the coordinator publishes the no-signal sentinel raw
value 1 and sets ready; (2) a read of the sentinel in a period mode formats
as exactly `"0.00000"`; (3) a ready raw value that is not the sentinel and
not above `24 * PrdCnt` formats as exactly `"999999"`. -/
theorem c3_period_sentinels :
    (∀ s : FCState, ∀ cnt : Nat, 7 ≤ s.fcGateTime → s.fcprescaler = 1 →
       s.FreqCtrReady = false →
       (FreqCtrGateISR s cnt).fcResult = 1 ∧
       (FreqCtrGateISR s cnt).FreqCtrReady = true) ∧
    (∀ s : FCState, 7 ≤ s.fcGateTime → s.FreqCtrReady = true → s.fcResult = 1 →
       1 ≤ s.PrdCnt → (FrequencyCounter.read true s).1 = some "0.00000") ∧
    (∀ s : FCState, 7 ≤ s.fcGateTime → s.FreqCtrReady = true → s.fcResult ≠ 1 →
       s.fcResult ≤ 24 * s.PrdCnt →
       (FrequencyCounter.read true s).1 = some "999999") := by
  refine ⟨?_, ?_, ?_⟩
  · intro s cnt hm hp hr
    rw [FreqCtrGateISR, if_pos (by omega), if_pos (by omega),
      if_pos (show s.fcGateTime ≥ FCPRDNO by simpa [FCPRDNO] using hm),
      if_pos hr]
    exact ⟨rfl, rfl⟩
  · intro s hm hr hv hp
    rw [FrequencyCounter.read, if_neg (by simp),
      if_pos (show s.fcGateTime ≥ FCPRDNO by simpa [FCPRDNO] using hm)]
    rw [if_neg (by rw [hv]; omega), if_pos hv]
    simp [natDigits, DPStr, zeroPadC, lastN, List.replicate]
    all_goals decide
  · intro s hm hr hv hle
    rw [FrequencyCounter.read, if_neg (by simp),
      if_pos (show s.fcGateTime ≥ FCPRDNO by simpa [FCPRDNO] using hm)]
    rw [if_neg (by omega), if_neg hv]
    simp [natDigits]
    all_goals decide

/-- Witness for `c3_period_sentinels`: the sentinel formats as `"0.00000"`
in period mode 7 with averaging count 1. -/
theorem c3_period_sentinels_witness :
    ((7:Int) ≤ 7 ∧ 1 ≤ 1) ∧
    (FrequencyCounter.read true
      { fcInit with fcGateTime := 7, PrdCnt := 1, FreqCtrReady := true,
                    fcResult := 1 }).1 = some "0.00000" :=
  ⟨⟨by decide, by decide⟩,
   c3_period_sentinels.2.1
     { fcInit with fcGateTime := 7, PrdCnt := 1, FreqCtrReady := true, fcResult := 1 }
     (by decide) rfl rfl (by decide)⟩

theorem natDigits_lt_ten (n : Nat) (h : n < 10) : natDigits n = [digitChar n] := by
  rw [natDigits, if_pos h]

theorem Log10I_one : Log10I 1 = 0 := by simp [Log10I]

theorem Log10I_ten : Log10I 10 = 1 := by simp [Log10I]

theorem Log10I_hundred : Log10I 100 = 2 := by simp [Log10I]

theorem Log10I_thousand : Log10I 1000 = 3 := by simp [Log10I]

theorem Log10I_tenThousand : Log10I 10000 = 4 := by simp [Log10I]

theorem zeroPadC_of_length_ge (l : List Char) (w : Nat) (h : w ≤ l.length) :
    zeroPadC w l = l := by
  simp [zeroPadC, Nat.sub_eq_zero_of_le h]

/-- C2: frequency-mode formatting.  The concrete cases of the claim: a raw
count of 500 formats as `"50000"` under the 10 ms gate (divisor 1) and as
`"50.0"` under the 10 s gate (divisor 1000).  In general, gate divisors of
100 or less (10 ms, 100 ms, 1 s, and external gate) produce a plain integer
string with no decimal point, scaled by `100 / divisor`; the 10 s gate
(divisor 1000) produces `Val / 10` integer digits, a point, and the single
digit `Val % 10`; the 100 s gate (divisor 10000) produces `Val / 100`,
a point, and `Val % 100` zero-padded to two digits — all by truncating
natural division, never rounding. -/
theorem c2_freq_format :
    ((FrequencyCounter.read true
        { fcInit with fcGateTime := 2, fcprescalInit := 1, fcResult := 500 }).1 =
      some "50000") ∧
    ((FrequencyCounter.read true
        { fcInit with fcGateTime := 4, fcprescalInit := 1000, fcResult := 500 }).1 =
      some "50.0") ∧
    (∀ s : FCState, s.fcGateTime < 7 →
      (s.fcprescalInit = 1 ∨ s.fcprescalInit = 10 ∨ s.fcprescalInit = 100) →
      s.fcResult < 4294967296 →
      (FrequencyCounter.read true s).1 =
        some (String.mk (natDigits (s.fcResult * (100 / s.fcprescalInit) % 4294967296))) ∧
      '.' ∉ natDigits (s.fcResult * (100 / s.fcprescalInit) % 4294967296)) ∧
    (∀ s : FCState, s.fcGateTime < 7 → s.fcprescalInit = 1000 →
      (FrequencyCounter.read true s).1 =
        some (String.mk (natDigits (s.fcResult / 10) ++
          '.' :: [digitChar (s.fcResult % 10)]))) ∧
    (∀ s : FCState, s.fcGateTime < 7 → s.fcprescalInit = 10000 →
      (FrequencyCounter.read true s).1 =
        some (String.mk (natDigits (s.fcResult / 100) ++
          '.' :: zeroPadC 2 (natDigits (s.fcResult % 100))))) := by
  have hfreq : ∀ s : FCState, s.fcGateTime < 7 → ¬ s.fcGateTime ≥ FCPRDNO := by
    intro s h
    simp only [FCPRDNO]
    omega
  have hp3 : ∀ s : FCState, s.fcGateTime < 7 →
      (s.fcprescalInit = 1 ∨ s.fcprescalInit = 10 ∨ s.fcprescalInit = 100) →
      s.fcResult < 4294967296 →
      (FrequencyCounter.read true s).1 =
        some (String.mk (natDigits (s.fcResult * (100 / s.fcprescalInit) % 4294967296))) ∧
      '.' ∉ natDigits (s.fcResult * (100 / s.fcprescalInit) % 4294967296) := by
    intro s hm hinit hlt
    refine ⟨?_, dot_not_mem_natDigits _⟩
    rcases hinit with h | h | h
    · rw [FrequencyCounter.read, if_neg (by simp), if_neg (hfreq s hm)]
      rw [h, Log10I_one]
      norm_num
      rw [show Int.toNat 2 = 2 from rfl, mulPow10Mod_eq 2 s.fcResult (by omega)]
      norm_num
    · rw [FrequencyCounter.read, if_neg (by simp), if_neg (hfreq s hm)]
      rw [h, Log10I_ten]
      norm_num
      rw [mulPow10Mod_eq 1 s.fcResult (by omega)]
      norm_num
    · rw [FrequencyCounter.read, if_neg (by simp), if_neg (hfreq s hm)]
      rw [h, Log10I_hundred]
      norm_num
      rw [DPStr, if_pos rfl]
      simp [Nat.mod_eq_of_lt hlt]
  have hp4 : ∀ s : FCState, s.fcGateTime < 7 → s.fcprescalInit = 1000 →
      (FrequencyCounter.read true s).1 =
        some (String.mk (natDigits (s.fcResult / 10) ++
          '.' :: [digitChar (s.fcResult % 10)])) := by
    intro s hm hinit
    rw [FrequencyCounter.read, if_neg (by simp), if_neg (hfreq s hm)]
    rw [hinit, Log10I_thousand]
    norm_num
    rw [DPStr, if_neg (by omega)]
    simp only [lastN_zeroPadC_natDigits s.fcResult 1 (by omega) (by omega)]
    rw [zeroPadC_of_length_ge _ _ (natDigits_length_pos _), pow_one]
    rw [natDigits_lt_ten _ (Nat.mod_lt _ (by omega))]
  have hp5 : ∀ s : FCState, s.fcGateTime < 7 → s.fcprescalInit = 10000 →
      (FrequencyCounter.read true s).1 =
        some (String.mk (natDigits (s.fcResult / 100) ++
          '.' :: zeroPadC 2 (natDigits (s.fcResult % 100)))) := by
    intro s hm hinit
    rw [FrequencyCounter.read, if_neg (by simp), if_neg (hfreq s hm)]
    rw [hinit, Log10I_tenThousand]
    norm_num
    rw [DPStr, if_neg (by omega), show Int.toNat 2 = 2 from rfl]
    simp only [lastN_zeroPadC_natDigits s.fcResult 2 (by omega) (by omega)]
    norm_num
  refine ⟨?_, ?_, hp3, hp4, hp5⟩
  · have h1 := (hp3 { fcInit with fcGateTime := 2, fcprescalInit := 1, fcResult := 500 }
      (by decide) (by decide) (by decide)).1
    rw [h1]
    simp [fcInit, natDigits]
    all_goals decide
  · have h2 := hp4 { fcInit with fcGateTime := 4, fcprescalInit := 1000, fcResult := 500 }
      (by decide) (by decide)
    rw [h2]
    simp [fcInit, natDigits]
    all_goals decide

/-- Witness for `c2_freq_format` (general frequency part) at the 100 ms gate
divisor with raw count 500. -/
theorem c2_freq_format_witness :
    ({ fcInit with fcGateTime := 3, fcprescalInit := 10, fcResult := 500 } : FCState).fcGateTime < 7 ∧
    (FrequencyCounter.read true
       { fcInit with fcGateTime := 3, fcprescalInit := 10, fcResult := 500 }).1 =
      some (String.mk (natDigits (500 * (100 / 10) % 4294967296))) :=
  ⟨by decide, (c2_freq_format.2.2.1 _ (by decide) (by decide) (by decide)).1⟩

/-- C1: in period modes, for every raw period `P` the read accepts as valid
(ready set and `P > 24 * PrdCnt`, with the averaging count `N = PrdCnt` one
of 1/10/100), the formatted string equals the spec rendering of
`(10^6 * N) / P` with exactly 5 digits after the decimal point; moreover the
integer part of the split, `(10^11 * N) / P / 10^5`, coincides with the exact
integer quotient `(10^6 * N) / P`. -/
theorem c1_period_format (s : FCState) (hm : 7 ≤ s.fcGateTime)
    (hN : s.PrdCnt = 1 ∨ s.PrdCnt = 10 ∨ s.PrdCnt = 100)
    (hr : s.FreqCtrReady = true) (hP : 24 * s.PrdCnt < s.fcResult) :
    (FrequencyCounter.read true s).1 = some (specPeriodRender s.PrdCnt s.fcResult) ∧
    100000000000 * s.PrdCnt / s.fcResult / 100000 =
      1000000 * s.PrdCnt / s.fcResult := by
  have hV : 100000000000 * s.PrdCnt / s.fcResult < 4294967296 :=
    period_quot_lt _ _ hN hP
  have hmod : 100000000000 * s.PrdCnt / s.fcResult % 4294967296 =
      100000000000 * s.PrdCnt / s.fcResult := Nat.mod_eq_of_lt hV
  constructor
  · rw [FrequencyCounter.read, if_neg (by simp),
      if_pos (show s.fcGateTime ≥ FCPRDNO by simpa [FCPRDNO] using hm),
      if_pos ⟨hr, hP⟩]
    simp only [specPeriodRender, hmod]
    rw [DPStr, if_neg (by omega)]
    simp only [lastN_zeroPadC_natDigits _ 5 (by omega) (by omega)]
    norm_num
  · rw [Nat.div_div_eq_div_mul,
      show (100000000000:Nat) * s.PrdCnt = 100000 * (1000000 * s.PrdCnt) by ring,
      show s.fcResult * 100000 = 100000 * s.fcResult by ring]
    exact Nat.mul_div_mul_left _ _ (by norm_num)

/-- Witness for `c1_period_format`: a 1000 us period (1 kHz) with averaging
count 1. -/
theorem c1_period_format_witness :
    24 * 1 < 1000 ∧
    ((FrequencyCounter.read true
        { fcInit with fcGateTime := 7, PrdCnt := 1, FreqCtrReady := true,
                      fcResult := 1000 }).1 = some (specPeriodRender 1 1000) ∧
     100000000000 * 1 / 1000 / 100000 = 1000000 * 1 / 1000) :=
  ⟨by decide,
   c1_period_format
     { fcInit with fcGateTime := 7, PrdCnt := 1, FreqCtrReady := true, fcResult := 1000 }
     (by decide) (by decide) rfl (by decide)⟩
